import Mathlib

/-!
Shallow embedding of `src/youtube_metadata_extractor.py` and proofs of the
spec's testable properties about it.

The program has five parts: a pure URL → video-id extractor built from three
regex rules, a transcript selector with a tiered language-fallback policy over
an abstract caption-retrieval API, a metadata assembler that merges the
collaborator outputs into one record, a JSON file writer, and a command-line
entry point.  External collaborators (yt-dlp, the caption API, the JSON
library) appear as explicit parameters or as faithfully modelled pure
functions.
-/

/-! ## URL Identifier Extractor (`extract_video_id`)

The Python function tries three regular expressions in order and returns
group 1 of the first that matches anywhere in the string:

  1. `(?:v=|\/)([0-9A-Za-z_-]{11}).*`
  2. `(?:embed\/)([0-9A-Za-z_-]{11})`
  3. `(?:youtu\.be\/)([0-9A-Za-z_-]{11})`

`re.search` tries the anchored pattern at each start position from the left;
inside rule 1 the alternatives `v=` and `/` are tried in that order.  The
trailing `.*` of rule 1 always matches and constrains nothing. -/

/-- The character class `[0-9A-Za-z_-]` of the video-id group. -/
def isIdChar (c : Char) : Bool :=
  c.isDigit || c.isUpper || c.isLower || c = '_' || c = '-'

/-- Take exactly `n` id characters from the front of `cs` (the `{11}` group). -/
def idTake : Nat → List Char → Option (List Char)
  | 0, _ => some []
  | _ + 1, [] => none
  | n + 1, c :: cs => if isIdChar c then (idTake n cs).map (c :: ·) else none

/-- Strip the literal `lit` from the front of `cs`, returning the rest. -/
def dropLit : List Char → List Char → Option (List Char)
  | [], cs => some cs
  | _ :: _, [] => none
  | p :: ps, c :: cs => if c = p then dropLit ps cs else none

/-- One anchored attempt of rule 1, `(?:v=|\/)([0-9A-Za-z_-]{11}).*`:
the alternative `v=` is tried before `/`, as in the regex. -/
def matchWatchAt (cs : List Char) : Option (List Char) :=
  match dropLit ['v', '='] cs with
  | some rest => idTake 11 rest
  | none =>
    match dropLit ['/'] cs with
    | some rest => idTake 11 rest
    | none => none

/-- One anchored attempt of rule 2, `(?:embed\/)([0-9A-Za-z_-]{11})`. -/
def matchEmbedAt (cs : List Char) : Option (List Char) :=
  (dropLit ['e', 'm', 'b', 'e', 'd', '/'] cs).bind (idTake 11)

/-- One anchored attempt of rule 3, `(?:youtu\.be\/)([0-9A-Za-z_-]{11})`. -/
def matchShortAt (cs : List Char) : Option (List Char) :=
  (dropLit ['y', 'o', 'u', 't', 'u', '.', 'b', 'e', '/'] cs).bind (idTake 11)

/-- `re.search`: try the anchored matcher at every start position, leftmost
position first. -/
def searchWith (f : List Char → Option (List Char)) : List Char → Option (List Char)
  | [] => f []
  | c :: cs =>
    match f (c :: cs) with
    | some r => some r
    | none => searchWith f cs

/-- `extract_video_id`: first rule that matches anywhere wins; `none` models
Python's `None` ("not found"). -/
def extract_video_id (url : String) : Option String :=
  match searchWith matchWatchAt url.data with
  | some r => some (String.mk r)
  | none =>
    match searchWith matchEmbedAt url.data with
    | some r => some (String.mk r)
    | none =>
      match searchWith matchShortAt url.data with
      | some r => some (String.mk r)
      | none => none

/-! Structural facts about the extractor: any returned token is an
11-character run of id characters embedded in the URL. -/

theorem idTake_spec {n : Nat} {cs r : List Char} (h : idTake n cs = some r) :
    r.length = n ∧ (∀ c ∈ r, isIdChar c = true) ∧ ∃ rest, cs = r ++ rest := by
  induction n generalizing cs r with
  | zero =>
    simp only [idTake, Option.some.injEq] at h
    subst h
    exact ⟨rfl, by simp, cs, rfl⟩
  | succ n ih =>
    cases cs with
    | nil => simp [idTake] at h
    | cons c cs' =>
      simp only [idTake] at h
      by_cases hc : isIdChar c
      · rw [if_pos hc] at h
        cases hr : idTake n cs' with
        | none => rw [hr] at h; simp at h
        | some r' =>
          rw [hr] at h
          simp only [Option.map_some', Option.some.injEq] at h
          subst h
          obtain ⟨hlen, hall, rest, hrest⟩ := ih hr
          refine ⟨by simp [hlen], ?_, rest, by simp [hrest]⟩
          intro x hx
          rcases List.mem_cons.mp hx with h1 | h2
          · exact h1 ▸ hc
          · exact hall x h2
      · rw [if_neg hc] at h; simp at h

theorem dropLit_spec {lit cs rest : List Char} (h : dropLit lit cs = some rest) :
    cs = lit ++ rest := by
  induction lit generalizing cs with
  | nil => simpa [dropLit] using h
  | cons p ps ih =>
    cases cs with
    | nil => simp [dropLit] at h
    | cons c cs' =>
      simp only [dropLit] at h
      by_cases hc : c = p
      · rw [if_pos hc] at h
        simp [hc, ih h]
      · rw [if_neg hc] at h; simp at h

theorem matchWatchAt_spec {cs r : List Char} (h : matchWatchAt cs = some r) :
    r.length = 11 ∧ (∀ c ∈ r, isIdChar c = true) ∧ ∃ pre rest, cs = pre ++ r ++ rest := by
  unfold matchWatchAt at h
  cases hd : dropLit ['v', '='] cs with
  | some rest0 =>
    simp only [hd] at h
    obtain ⟨h1, h2, rest, hrest⟩ := idTake_spec h
    exact ⟨h1, h2, ['v', '='], rest, by simp [dropLit_spec hd, hrest]⟩
  | none =>
    simp only [hd] at h
    cases hd2 : dropLit ['/'] cs with
    | some rest0 =>
      simp only [hd2] at h
      obtain ⟨h1, h2, rest, hrest⟩ := idTake_spec h
      exact ⟨h1, h2, ['/'], rest, by simp [dropLit_spec hd2, hrest]⟩
    | none => simp [hd2] at h

theorem matchEmbedAt_spec {cs r : List Char} (h : matchEmbedAt cs = some r) :
    r.length = 11 ∧ (∀ c ∈ r, isIdChar c = true) ∧ ∃ pre rest, cs = pre ++ r ++ rest := by
  unfold matchEmbedAt at h
  cases hd : dropLit ['e', 'm', 'b', 'e', 'd', '/'] cs with
  | some rest0 =>
    rw [hd] at h
    simp only [Option.some_bind] at h
    obtain ⟨h1, h2, rest, hrest⟩ := idTake_spec h
    exact ⟨h1, h2, ['e', 'm', 'b', 'e', 'd', '/'], rest, by simp [dropLit_spec hd, hrest]⟩
  | none => rw [hd] at h; simp at h

theorem matchShortAt_spec {cs r : List Char} (h : matchShortAt cs = some r) :
    r.length = 11 ∧ (∀ c ∈ r, isIdChar c = true) ∧ ∃ pre rest, cs = pre ++ r ++ rest := by
  unfold matchShortAt at h
  cases hd : dropLit ['y', 'o', 'u', 't', 'u', '.', 'b', 'e', '/'] cs with
  | some rest0 =>
    rw [hd] at h
    simp only [Option.some_bind] at h
    obtain ⟨h1, h2, rest, hrest⟩ := idTake_spec h
    exact ⟨h1, h2, ['y', 'o', 'u', 't', 'u', '.', 'b', 'e', '/'], rest,
      by simp [dropLit_spec hd, hrest]⟩
  | none => rw [hd] at h; simp at h

theorem searchWith_spec {f : List Char → Option (List Char)} {cs r : List Char}
    (h : searchWith f cs = some r) :
    ∃ pre suf, cs = pre ++ suf ∧ f suf = some r := by
  induction cs with
  | nil => exact ⟨[], [], rfl, h⟩
  | cons c cs' ih =>
    unfold searchWith at h
    cases hf : f (c :: cs') with
    | some r' =>
      rw [hf] at h
      simp only [Option.some.injEq] at h
      exact ⟨[], c :: cs', rfl, h ▸ hf⟩
    | none =>
      rw [hf] at h
      obtain ⟨pre, suf, hps, hfs⟩ := ih h
      exact ⟨c :: pre, suf, by simp [hps], hfs⟩

/-- Any token returned by `extract_video_id` is an 11-character run of id
characters occurring inside the URL. -/
theorem extract_video_id_spec {url : String} {s : String}
    (h : extract_video_id url = some s) :
    s.length = 11 ∧ (∀ c ∈ s.data, isIdChar c = true) ∧
      ∃ p q, url.data = p ++ s.data ++ q := by
  unfold extract_video_id at h
  have core :
      ∀ {g : List Char → Option (List Char)},
        (∀ {cs r : List Char}, g cs = some r →
          r.length = 11 ∧ (∀ c ∈ r, isIdChar c = true) ∧ ∃ pre rest, cs = pre ++ r ++ rest) →
        ∀ {r : List Char}, searchWith g url.data = some r →
          (String.mk r).length = 11 ∧ (∀ c ∈ (String.mk r).data, isIdChar c = true) ∧
            ∃ p q, url.data = p ++ (String.mk r).data ++ q := by
    intro g gspec r hg
    obtain ⟨pre, suf, hps, hfs⟩ := searchWith_spec hg
    obtain ⟨h1, h2, mid, rest, hmr⟩ := gspec hfs
    refine ⟨h1, h2, pre ++ mid, rest, ?_⟩
    simp [hps, hmr]
  cases h1 : searchWith matchWatchAt url.data with
  | some r =>
    rw [h1] at h
    simp only [Option.some.injEq] at h
    exact h ▸ core (fun hh => matchWatchAt_spec hh) h1
  | none =>
    rw [h1] at h
    cases h2 : searchWith matchEmbedAt url.data with
    | some r =>
      rw [h2] at h
      simp only [Option.some.injEq] at h
      exact h ▸ core (fun hh => matchEmbedAt_spec hh) h2
    | none =>
      rw [h2] at h
      cases h3 : searchWith matchShortAt url.data with
      | some r =>
        rw [h3] at h
        simp only [Option.some.injEq] at h
        exact h ▸ core (fun hh => matchShortAt_spec hh) h3
      | none => rw [h3] at h; simp at h

/-- C1: an input URL on which none of the three pattern rules matches anywhere
(no `watch`-style `v=`/path-segment match, no `embed` match, no `youtu.be`
match) makes `extract_video_id` return `none` ("not found"). -/
theorem claim_C1 (url : String)
    (h1 : searchWith matchWatchAt url.data = none)
    (h2 : searchWith matchEmbedAt url.data = none)
    (h3 : searchWith matchShortAt url.data = none) :
    extract_video_id url = none := by
  unfold extract_video_id
  rw [h1, h2, h3]

/-- Witness for C1 at the spec's example `https://example.com/video`: none of
the three rules matches it, and the extractor returns `none`. -/
theorem claim_C1_witness :
    searchWith matchWatchAt "https://example.com/video".data = none ∧
    searchWith matchEmbedAt "https://example.com/video".data = none ∧
    searchWith matchShortAt "https://example.com/video".data = none ∧
    extract_video_id "https://example.com/video" = none :=
  ⟨rfl, rfl, rfl, claim_C1 "https://example.com/video" rfl rfl rfl⟩

/-- C4: on the three known URL shapes the extractor returns exactly the
embedded 11-character token (the three example URLs evaluate as the spec
says); the rules are tried in a fixed order with the first match winning; and
every returned token is an 11-character run of id characters embedded in the
URL.  Determinism/purity holds because `extract_video_id` is a function. -/
theorem claim_C4 :
    extract_video_id "https://www.youtube.com/watch?v=dQw4w9WgXcQ" = some "dQw4w9WgXcQ" ∧
    extract_video_id "https://youtu.be/dQw4w9WgXcQ" = some "dQw4w9WgXcQ" ∧
    extract_video_id "https://www.youtube.com/embed/dQw4w9WgXcQ" = some "dQw4w9WgXcQ" ∧
    (∀ url r, searchWith matchWatchAt url.data = some r →
        extract_video_id url = some (String.mk r)) ∧
    (∀ url r, searchWith matchWatchAt url.data = none →
        searchWith matchEmbedAt url.data = some r →
        extract_video_id url = some (String.mk r)) ∧
    (∀ url r, searchWith matchWatchAt url.data = none →
        searchWith matchEmbedAt url.data = none →
        searchWith matchShortAt url.data = some r →
        extract_video_id url = some (String.mk r)) ∧
    (∀ url s, extract_video_id url = some s →
        s.length = 11 ∧ (∀ c ∈ s.data, isIdChar c = true) ∧
          ∃ p q, url.data = p ++ s.data ++ q) := by
  refine ⟨rfl, rfl, rfl, ?_, ?_, ?_, ?_⟩
  · intro url r h
    unfold extract_video_id
    rw [h]
  · intro url r h1 h2
    unfold extract_video_id
    rw [h1, h2]
  · intro url r h1 h2 h3
    unfold extract_video_id
    rw [h1, h2, h3]
  · intro url s h
    exact extract_video_id_spec h

/-- Witness for C4: the first-rule-wins part applied at the concrete `watch`
URL, whose rule-1 search yields exactly the embedded token. -/
theorem claim_C4_witness :
    extract_video_id "https://www.youtube.com/watch?v=dQw4w9WgXcQ" =
      some (String.mk ['d', 'Q', 'w', '4', 'w', '9', 'W', 'g', 'X', 'c', 'Q']) :=
  claim_C4.2.2.2.1 "https://www.youtube.com/watch?v=dQw4w9WgXcQ"
    ['d', 'Q', 'w', '4', 'w', '9', 'W', 'g', 'X', 'c', 'Q'] rfl

/-! ## Transcript Selector (`get_video_transcript`)

The caption-retrieval collaborator (`youtube_transcript_api`) is modelled
abstractly.  `list_transcripts` either raises (`none`) or returns the list of
caption-track descriptors; `get_transcript vid lang` is the per-language fetch
`YouTubeTranscriptApi.get_transcript(vid, languages=[lang])`, which either
raises (`none`) or returns the timed segments.  A descriptor's own `fetch()`
method is a field of the descriptor. -/

/-- One timed text segment of a transcript (`{'text', 'start', 'duration'}`).
Times are modelled as integers. -/
structure Segment where
  start : Int
  duration : Int
  text : String
deriving DecidableEq, Repr

/-- A transcript is the ordered list of its segments. -/
def Transcript := List Segment
deriving DecidableEq, Repr

/-- A caption-track descriptor as returned by `list_transcripts`: language
code, machine-generated flag, translatable flag, and the track's own `fetch()`
operation (`none` models a raised exception). -/
structure CaptionTrack where
  language_code : String
  is_generated : Bool
  is_translatable : Bool
  fetch : Option Transcript
deriving DecidableEq, Repr

/-- The caption-retrieval collaborator. -/
structure CaptionAPI where
  list_transcripts : String → Option (List CaptionTrack)
  get_transcript : String → String → Option Transcript

/-- The preferred-language loop: for each code in order, attempt the
per-language fetch; the first success wins, failures are swallowed. -/
def tryPreferred (api : CaptionAPI) (video_id : String) :
    List String → Option (Transcript × String)
  | [] => none
  | lang :: rest =>
    match api.get_transcript video_id lang with
    | some t => some (t, lang)
    | none => tryPreferred api video_id rest

/-- First descriptor in the list satisfying `p` (the `for`/`if` scan). -/
def firstTrack (p : CaptionTrack → Bool) : List CaptionTrack → Option CaptionTrack
  | [] => none
  | t :: ts => if p t then some t else firstTrack p ts

/-- One fallback tier: scan for the first descriptor satisfying `p` and fetch
it.  If its fetch raises, the exception aborts the whole tier (`except: pass`),
so no later descriptor is tried. -/
def tierFetch (p : CaptionTrack → Bool) (ts : List CaptionTrack) :
    Option (Transcript × String) :=
  match firstTrack p ts with
  | none => none
  | some tr =>
    match tr.fetch with
    | some d => some (d, tr.language_code)
    | none => none

/-- `get_video_transcript`: `languages=None` defaults to `['en', 'hi']`; then
list the tracks (a failure is caught and yields `(None, None)`), try each
preferred language, then the first human-authored track, then the first
machine-generated track, and finally give up with `(None, None)`. -/
def get_video_transcript (api : CaptionAPI) (video_id : String)
    (languages : Option (List String)) : Option Transcript × Option String :=
  let langs := languages.getD ["en", "hi"]
  match api.list_transcripts video_id with
  | none => (none, none)
  | some transcript_list =>
    match tryPreferred api video_id langs with
    | some (t, lang) => (some t, some lang)
    | none =>
      match tierFetch (fun tr => !tr.is_generated) transcript_list with
      | some (d, lang) => (some d, some lang)
      | none =>
        match tierFetch (fun tr => tr.is_generated) transcript_list with
        | some (d, lang) => (some d, some lang)
        | none => (none, none)

/-- Every preferred-language code failing makes the whole loop fail. -/
theorem tryPreferred_none {api : CaptionAPI} {video_id : String}
    (hall : ∀ l, api.get_transcript video_id l = none) :
    ∀ langs, tryPreferred api video_id langs = none := by
  intro langs
  induction langs with
  | nil => rfl
  | cons lang rest ih => simp only [tryPreferred, hall lang, ih]

/-- C2: provided the track-listing call succeeds, the preferred-language loop
tries the codes in the given order, a per-code failure is swallowed and the
next code tried, the first per-code success is returned together with its
code, and (in particular) with preference list `["en", "hi"]` a successful
`en` fetch is always chosen — regardless of the available tracks, hence even
when `hi` is human-authored and `en` machine-generated. -/
theorem claim_C2 :
    (∀ (api : CaptionAPI) (vid : String) (ts : List CaptionTrack)
        (langs : List String) (t : Transcript) (l : String),
      api.list_transcripts vid = some ts →
      tryPreferred api vid langs = some (t, l) →
      get_video_transcript api vid (some langs) = (some t, some l)) ∧
    (∀ (api : CaptionAPI) (vid lang : String) (rest : List String) (t : Transcript),
      api.get_transcript vid lang = some t →
      tryPreferred api vid (lang :: rest) = some (t, lang)) ∧
    (∀ (api : CaptionAPI) (vid lang : String) (rest : List String),
      api.get_transcript vid lang = none →
      tryPreferred api vid (lang :: rest) = tryPreferred api vid rest) ∧
    (∀ (api : CaptionAPI) (vid : String) (ts : List CaptionTrack) (t : Transcript),
      api.list_transcripts vid = some ts →
      api.get_transcript vid "en" = some t →
      get_video_transcript api vid (some ["en", "hi"]) = (some t, some "en")) := by
  refine ⟨?_, ?_, ?_, ?_⟩
  · intro api vid ts langs t l h1 h2
    simp only [get_video_transcript, Option.getD_some, h1, h2]
  · intro api vid lang rest t h
    simp only [tryPreferred, h]
  · intro api vid lang rest h
    simp only [tryPreferred, h]
  · intro api vid ts t h1 h2
    simp only [get_video_transcript, Option.getD_some, h1, tryPreferred, h2]

/-- A concrete caption environment: the `en` track is machine-generated, the
`hi` track is human-authored, and the per-language `en` fetch succeeds. -/
def segHello : Segment := ⟨0, 2, "hello"⟩

def segWorld : Segment := ⟨2, 3, "world"⟩

def trackEnAuto : CaptionTrack := ⟨"en", true, true, some [segHello]⟩

def trackHiManual : CaptionTrack := ⟨"hi", false, true, some [segWorld]⟩

def apiEnAuto : CaptionAPI :=
  ⟨fun _ => some [trackEnAuto, trackHiManual],
   fun _ l => if l = "en" then some [segHello, segWorld] else none⟩

/-- Witness for C2: in `apiEnAuto` the human-authored `hi` track exists and
`en` is machine-generated, yet the successful `en` fetch is chosen. -/
theorem claim_C2_witness :
    get_video_transcript apiEnAuto "vid0" (some ["en", "hi"]) =
      (some [segHello, segWorld], some "en") :=
  claim_C2.2.2.2 apiEnAuto "vid0" [trackEnAuto, trackHiManual]
    [segHello, segWorld] rfl rfl

/-- C3: when no preferred-language fetch succeeded, the selector takes the
first human-authored (non-generated) descriptor in list order and, if its
fetch succeeds, returns its segments and language code — in preference to
every machine-generated track; only when no human-authored track is found and
fetched does it fall back to the first machine-generated descriptor. -/
theorem claim_C3 :
    (∀ (api : CaptionAPI) (vid : String) (ts : List CaptionTrack)
        (langs : List String) (tr : CaptionTrack) (d : Transcript),
      api.list_transcripts vid = some ts →
      tryPreferred api vid langs = none →
      firstTrack (fun t => !t.is_generated) ts = some tr →
      tr.fetch = some d →
      get_video_transcript api vid (some langs) = (some d, some tr.language_code)) ∧
    (∀ (api : CaptionAPI) (vid : String) (ts : List CaptionTrack)
        (langs : List String) (g : CaptionTrack) (d : Transcript),
      api.list_transcripts vid = some ts →
      tryPreferred api vid langs = none →
      tierFetch (fun t => !t.is_generated) ts = none →
      firstTrack (fun t => t.is_generated) ts = some g →
      g.fetch = some d →
      get_video_transcript api vid (some langs) = (some d, some g.language_code)) := by
  constructor
  · intro api vid ts langs tr d h1 h2 h3 h4
    simp only [get_video_transcript, Option.getD_some, h1, h2, tierFetch, h3, h4]
  · intro api vid ts langs g d h1 h2 h3 h4 h5
    simp only [get_video_transcript, Option.getD_some, h1, h2, h3]
    simp only [tierFetch, h4, h5]

/-- A caption environment with no per-language fetch available at all. -/
def apiNoPref : CaptionAPI :=
  ⟨fun _ => some [trackEnAuto, trackHiManual], fun _ _ => none⟩

/-- Witness for C3: preferred languages fail, the machine-generated `en`
descriptor comes first in the list, yet the human-authored `hi` descriptor is
the one fetched. -/
theorem claim_C3_witness :
    get_video_transcript apiNoPref "vid0" (some ["en", "hi"]) =
      (some [segWorld], some "hi") :=
  claim_C3.1 apiNoPref "vid0" [trackEnAuto, trackHiManual] ["en", "hi"]
    trackHiManual [segWorld] rfl rfl rfl rfl

/-! ## Metadata Assembler (`extract_youtube_metadata`)

The video-metadata-lookup collaborator (yt-dlp's `extract_info`) is modelled
as a function from the raw URL to an optional info record; `none` covers both
a raised extraction error and the `ignoreerrors` path in which `info` is
`None` and the subsequent `info.get` calls raise — either way the `except`
clause returns `None` from the assembler.  A raised `ValueError` (invalid URL)
is `Except.error`, a caught failure is `Except.ok none`, success is
`Except.ok (some metadata)`. -/

/-- The fields read off the yt-dlp info dictionary with `info.get`. -/
structure Info where
  title : Option String
  description : Option String
  view_count : Option Int
  upload_date : Option String
  duration : Option Int
  uploader : Option String
  channel_id : Option String
  channel_url : Option String
  thumbnail : Option String
  categories : Option (List String)
  tags : Option (List String)
  like_count : Option Int
deriving DecidableEq, Repr

/-- The video-metadata-lookup collaborator. -/
structure MetadataAPI where
  extract_info : String → Option Info

/-- The merged result dictionary.  The thirteen base keys are always present
(`none` renders as JSON `null`); the three transcript keys are present exactly
when the corresponding `Option` is `some` — mirroring that the Python dict
only receives them inside `if transcript:`. -/
structure Metadata where
  video_id : String
  title : Option String
  description : Option String
  views : Option Int
  publish_date : Option String
  length : Option Int
  author : Option String
  channel_id : Option String
  channel_url : Option String
  thumbnail_url : Option String
  categories : Option (List String)
  tags : Option (List String)
  likes : Option Int
  transcript : Option Transcript
  transcript_language : Option String
  transcript_text : Option String
deriving DecidableEq, Repr

/-- The base metadata dictionary built from the extractor's id and the info
record, before the transcript step. -/
def baseMetadata (video_id : String) (info : Info) : Metadata where
  video_id := video_id
  title := info.title
  description := info.description
  views := info.view_count
  publish_date := info.upload_date
  length := info.duration
  author := info.uploader
  channel_id := info.channel_id
  channel_url := info.channel_url
  thumbnail_url := info.thumbnail
  categories := info.categories
  tags := info.tags
  likes := info.like_count
  transcript := none
  transcript_language := none
  transcript_text := none

/-- `extract_youtube_metadata`: derive the id (raising `ValueError` when the
URL yields none), query yt-dlp with the raw URL, then attach the transcript
fields only when the fetched transcript is truthy (non-`None` and non-empty,
Python's `if transcript:`). -/
def extract_youtube_metadata (mapi : MetadataAPI) (capi : CaptionAPI)
    (url : String) (transcript_languages : Option (List String)) :
    Except String (Option Metadata) :=
  match extract_video_id url with
  | none => .error "Invalid YouTube URL or could not extract video ID"
  | some video_id =>
    match mapi.extract_info url with
    | none => .ok none
    | some info =>
      let base := baseMetadata video_id info
      match get_video_transcript capi video_id transcript_languages with
      | (some transcript, lang) =>
        if transcript.isEmpty then .ok (some base)
        else
          .ok (some { base with
            transcript := some transcript
            transcript_language := lang
            transcript_text :=
              some (String.intercalate " " (transcript.map Segment.text)) })
      | (none, _) => .ok (some base)

/-- Characterization of assembler success: a returned record always comes from
a successfully derived id and info record, and its transcript fields are
filled exactly from a truthy (non-empty) selected transcript. -/
theorem extract_youtube_metadata_ok {mapi : MetadataAPI} {capi : CaptionAPI}
    {url : String} {ls : Option (List String)} {m : Metadata}
    (h : extract_youtube_metadata mapi capi url ls = .ok (some m)) :
    ∃ vid info, extract_video_id url = some vid ∧ mapi.extract_info url = some info ∧
      (((get_video_transcript capi vid ls).1 = none ∧ m = baseMetadata vid info) ∨
       (∃ t lang, get_video_transcript capi vid ls = (some t, lang) ∧ t.isEmpty = true ∧
          m = baseMetadata vid info) ∨
       (∃ t lang, get_video_transcript capi vid ls = (some t, lang) ∧ t.isEmpty = false ∧
          m = { baseMetadata vid info with
                transcript := some t
                transcript_language := lang
                transcript_text :=
                  some (String.intercalate " " (t.map Segment.text)) })) := by
  unfold extract_youtube_metadata at h
  cases hv : extract_video_id url with
  | none => simp only [hv] at h; exact absurd h (by simp)
  | some vid =>
    simp only [hv] at h
    cases hi : mapi.extract_info url with
    | none => simp only [hi] at h; exact absurd h (by simp)
    | some info =>
      simp only [hi] at h
      refine ⟨vid, info, rfl, rfl, ?_⟩
      cases hg : get_video_transcript capi vid ls with
      | mk tr lang =>
        rw [hg] at h
        cases tr with
        | none =>
          simp only [Except.ok.injEq, Option.some.injEq] at h
          exact Or.inl ⟨rfl, h.symm⟩
        | some t =>
          cases he : t.isEmpty with
          | true =>
            simp only [he, if_true, Except.ok.injEq, Option.some.injEq] at h
            exact Or.inr (Or.inl ⟨t, lang, rfl, he, h.symm⟩)
          | false =>
            simp only [he, Bool.false_eq_true, if_false, Except.ok.injEq,
              Option.some.injEq] at h
            exact Or.inr (Or.inr ⟨t, lang, rfl, he, h.symm⟩)

/-- C5: whenever the merged result carries the transcript fields, its
`transcript_text` equals the space-joined concatenation of the segment texts
of the selected transcript, in segment order. -/
theorem claim_C5 (mapi : MetadataAPI) (capi : CaptionAPI) (url : String)
    (ls : Option (List String)) (m : Metadata) (t : Transcript)
    (h : extract_youtube_metadata mapi capi url ls = .ok (some m))
    (ht : m.transcript = some t) :
    m.transcript_text = some (String.intercalate " " (t.map Segment.text)) := by
  obtain ⟨vid, info, _, _, hcase⟩ := extract_youtube_metadata_ok h
  rcases hcase with ⟨_, hm⟩ | ⟨t', lang, _, _, hm⟩ | ⟨t', lang, _, _, hm⟩
  · rw [hm] at ht; simp [baseMetadata] at ht
  · rw [hm] at ht; simp [baseMetadata] at ht
  · rw [hm] at ht
    simp only [Option.some.injEq] at ht
    rw [hm, ← ht]

/-- The selector returns either no transcript at all or both a transcript and
its language code. -/
theorem get_video_transcript_shape (api : CaptionAPI) (vid : String)
    (ls : Option (List String)) :
    get_video_transcript api vid ls = (none, none) ∨
      ∃ t l, get_video_transcript api vid ls = (some t, some l) := by
  unfold get_video_transcript
  cases hl : api.list_transcripts vid with
  | none => exact Or.inl rfl
  | some ts =>
    simp only
    cases ht : tryPreferred api vid (ls.getD ["en", "hi"]) with
    | some tl =>
      obtain ⟨t, l⟩ := tl
      simp only [ht]
      exact Or.inr ⟨t, l, rfl⟩
    | none =>
      simp only [ht]
      cases hm : tierFetch (fun tr => !tr.is_generated) ts with
      | some dl =>
        obtain ⟨d, l⟩ := dl
        simp only [hm]
        exact Or.inr ⟨d, l, rfl⟩
      | none =>
        simp only [hm]
        cases hgen : tierFetch (fun tr => tr.is_generated) ts with
        | some dl =>
          obtain ⟨d, l⟩ := dl
          simp only [hgen]
          exact Or.inr ⟨d, l, rfl⟩
        | none =>
          simp only [hgen]
          exact Or.inl trivial

/-- C6: the merged result's `video_id` is exactly what the Identifier
Extractor derives from the input URL (no later step alters it), and when no
identifier can be derived the assembler fails hard with the invalid-input
`ValueError`, producing no partial record. -/
theorem claim_C6 :
    (∀ (mapi : MetadataAPI) (capi : CaptionAPI) (url : String)
        (ls : Option (List String)) (m : Metadata),
      extract_youtube_metadata mapi capi url ls = .ok (some m) →
      extract_video_id url = some m.video_id) ∧
    (∀ (mapi : MetadataAPI) (capi : CaptionAPI) (url : String)
        (ls : Option (List String)),
      extract_video_id url = none →
      extract_youtube_metadata mapi capi url ls =
        .error "Invalid YouTube URL or could not extract video ID") := by
  constructor
  · intro mapi capi url ls m h
    obtain ⟨vid, info, hv, _, hcase⟩ := extract_youtube_metadata_ok h
    rcases hcase with ⟨_, hm⟩ | ⟨t, lang, _, _, hm⟩ | ⟨t, lang, _, _, hm⟩ <;>
      (subst hm; exact hv)
  · intro mapi capi url ls h
    simp only [extract_youtube_metadata, h]

/-- C8: transcript unavailability is never fatal.  A failing track-listing
call, an empty track list (with the per-language fetches failing likewise),
or all fallback tiers failing each yield `(None, None)` from the selector
without an exception, and the assembler still returns a merged record that
merely omits the three transcript fields. -/
theorem claim_C8 :
    (∀ (api : CaptionAPI) (vid : String) (ls : Option (List String)),
      api.list_transcripts vid = none →
      get_video_transcript api vid ls = (none, none)) ∧
    (∀ (api : CaptionAPI) (vid : String) (ls : Option (List String)),
      api.list_transcripts vid = some [] →
      (∀ l, api.get_transcript vid l = none) →
      get_video_transcript api vid ls = (none, none)) ∧
    (∀ (api : CaptionAPI) (vid : String) (langs : List String) (ts : List CaptionTrack),
      api.list_transcripts vid = some ts →
      tryPreferred api vid langs = none →
      tierFetch (fun tr => !tr.is_generated) ts = none →
      tierFetch (fun tr => tr.is_generated) ts = none →
      get_video_transcript api vid (some langs) = (none, none)) ∧
    (∀ (mapi : MetadataAPI) (capi : CaptionAPI) (url : String)
        (ls : Option (List String)) (vid : String) (info : Info),
      extract_video_id url = some vid →
      mapi.extract_info url = some info →
      get_video_transcript capi vid ls = (none, none) →
      ∃ m, extract_youtube_metadata mapi capi url ls = .ok (some m) ∧
        m.transcript = none ∧ m.transcript_language = none ∧ m.transcript_text = none) := by
  refine ⟨?_, ?_, ?_, ?_⟩
  · intro api vid ls h
    simp only [get_video_transcript, h]
  · intro api vid ls hl hall
    have hp := tryPreferred_none hall (ls.getD ["en", "hi"])
    simp only [get_video_transcript, hl, hp, tierFetch, firstTrack]
  · intro api vid langs ts h1 h2 h3 h4
    simp only [get_video_transcript, Option.getD_some, h1, h2, h3, h4]
  · intro mapi capi url ls vid info h1 h2 h3
    refine ⟨baseMetadata vid info, ?_, rfl, rfl, rfl⟩
    simp only [extract_youtube_metadata, h1, h2, h3]

/-- C10: the selector yields `(None, None)` or a fully paired result, so in
the merged record the three transcript fields are all present or all absent;
and a successfully fetched but empty segment list counts as absent, because
presence is decided by Python truthiness of the transcript value. -/
theorem claim_C10 :
    (∀ (api : CaptionAPI) (vid : String) (ls : Option (List String)),
      get_video_transcript api vid ls = (none, none) ∨
        ∃ t l, get_video_transcript api vid ls = (some t, some l)) ∧
    (∀ (mapi : MetadataAPI) (capi : CaptionAPI) (url : String)
        (ls : Option (List String)) (m : Metadata),
      extract_youtube_metadata mapi capi url ls = .ok (some m) →
      (m.transcript = none ∧ m.transcript_language = none ∧ m.transcript_text = none) ∨
        ∃ t l s, m.transcript = some t ∧ m.transcript_language = some l ∧
          m.transcript_text = some s) ∧
    (∀ (mapi : MetadataAPI) (capi : CaptionAPI) (url : String)
        (ls : Option (List String)) (vid : String) (info : Info) (l : Option String),
      extract_video_id url = some vid →
      mapi.extract_info url = some info →
      get_video_transcript capi vid ls = (some [], l) →
      ∃ m, extract_youtube_metadata mapi capi url ls = .ok (some m) ∧
        m.transcript = none ∧ m.transcript_language = none ∧ m.transcript_text = none) := by
  refine ⟨get_video_transcript_shape, ?_, ?_⟩
  · intro mapi capi url ls m h
    obtain ⟨vid, info, _, _, hcase⟩ := extract_youtube_metadata_ok h
    rcases hcase with ⟨_, hm⟩ | ⟨t, lang, _, _, hm⟩ | ⟨t, lang, hg, _, hm⟩
    · subst hm; exact Or.inl ⟨rfl, rfl, rfl⟩
    · subst hm; exact Or.inl ⟨rfl, rfl, rfl⟩
    · subst hm
      rcases get_video_transcript_shape capi vid ls with hshape | ⟨t', l', hshape⟩
      · rw [hshape] at hg
        exact absurd hg (by simp)
      · rw [hshape] at hg
        obtain ⟨hg1, hg2⟩ := Prod.ext_iff.mp hg
        exact Or.inr ⟨t, l', String.intercalate " " (t.map Segment.text), rfl, hg2.symm, rfl⟩
  · intro mapi capi url ls vid info l h1 h2 h3
    refine ⟨baseMetadata vid info, ?_, rfl, rfl, rfl⟩
    simp only [extract_youtube_metadata, h1, h2, h3, List.isEmpty_nil, if_true]

/-! Concrete collaborator environments used by the witnesses. -/

/-- A concrete yt-dlp info record (with non-ASCII text fields). -/
def infoEx : Info :=
  ⟨some "Café Título", some "descripción con acentos", some 100, some "20240101",
   some 212, some "Autor", some "chanid", some "https://example.org/chan",
   some "https://example.org/t.jpg", some ["Music"], some ["tag1", "tag2"], some 5⟩

def mapiEx : MetadataAPI := ⟨fun _ => some infoEx⟩

/-- The merged record produced from `infoEx` and the `apiEnAuto` captions. -/
def mEx : Metadata :=
  { baseMetadata "dQw4w9WgXcQ" infoEx with
    transcript := some [segHello, segWorld]
    transcript_language := some "en"
    transcript_text := some "hello world" }

/-- Witness for C5: on a concrete run the `transcript_text` field is the
space-joined segment texts (`"hello world"`). -/
theorem claim_C5_witness :
    mEx.transcript_text =
      some (String.intercalate " " ([segHello, segWorld].map Segment.text)) :=
  claim_C5 mapiEx apiEnAuto "https://youtu.be/dQw4w9WgXcQ" (some ["en", "hi"]) mEx
    [segHello, segWorld] rfl rfl

/-- Witness for C6: on a concrete success the record's id is the extractor's
output, and on the unmatchable example URL the assembler raises. -/
theorem claim_C6_witness :
    extract_video_id "https://youtu.be/dQw4w9WgXcQ" = some mEx.video_id ∧
    extract_youtube_metadata mapiEx apiEnAuto "https://example.com/video"
        (some ["en", "hi"]) =
      .error "Invalid YouTube URL or could not extract video ID" :=
  ⟨claim_C6.1 mapiEx apiEnAuto "https://youtu.be/dQw4w9WgXcQ" (some ["en", "hi"]) mEx rfl,
   claim_C6.2 mapiEx apiEnAuto "https://example.com/video" (some ["en", "hi"]) rfl⟩

/-- A caption environment whose track-listing call raises. -/
def apiListFails : CaptionAPI := ⟨fun _ => none, fun _ _ => none⟩

/-- Witness for C8: with a failing track listing the assembler still returns
a merged record without the transcript fields. -/
theorem claim_C8_witness :
    ∃ m, extract_youtube_metadata mapiEx apiListFails "https://youtu.be/dQw4w9WgXcQ"
        (some ["en", "hi"]) = .ok (some m) ∧
      m.transcript = none ∧ m.transcript_language = none ∧ m.transcript_text = none :=
  claim_C8.2.2.2 mapiEx apiListFails "https://youtu.be/dQw4w9WgXcQ" (some ["en", "hi"])
    "dQw4w9WgXcQ" infoEx rfl rfl rfl

/-- A caption environment whose `en` fetch succeeds with zero segments. -/
def apiEmptyFetch : CaptionAPI :=
  ⟨fun _ => some [], fun _ l => if l = "en" then some [] else none⟩

/-- Witness for C10: a successfully fetched empty transcript is treated as
absent — none of the three transcript fields is attached. -/
theorem claim_C10_witness :
    ∃ m, extract_youtube_metadata mapiEx apiEmptyFetch "https://youtu.be/dQw4w9WgXcQ"
        (some ["en", "hi"]) = .ok (some m) ∧
      m.transcript = none ∧ m.transcript_language = none ∧ m.transcript_text = none :=
  claim_C10.2.2 mapiEx apiEmptyFetch "https://youtu.be/dQw4w9WgXcQ" (some ["en", "hi"])
    "dQw4w9WgXcQ" infoEx (some "en") rfl rfl rfl

/-! ## Command-Line Entry Point (`main`)

Argument parsing always yields a language list (argparse default
`['en', 'hi']`), an optional positional URL and an optional `--output` path.
A falsy positional URL (absent or empty) makes the program prompt for one.
The observable outcome is modelled as the process exit status, the file write
(path and serialized record) and whether the "Failed to extract metadata."
message was printed; an uncaught `ValueError` from the assembler terminates
the process with a traceback and exit status 1 and writes nothing. -/

/-- Observable outcome of one program run. -/
structure RunResult where
  exitCode : Nat
  written : Option (String × Metadata)
  printedFailure : Bool
deriving DecidableEq, Repr

/-- `args.url if args.url else input(...)`: Python truthiness, so an empty
positional argument also falls back to the prompt. -/
def resolveUrl (urlArg : Option String) (promptedUrl : String) : String :=
  match urlArg with
  | some u => if u = "" then promptedUrl else u
  | none => promptedUrl

/-- The `main` driver (named `main'` because `main` is reserved). -/
def main' (mapi : MetadataAPI) (capi : CaptionAPI) (urlArg : Option String)
    (promptedUrl : String) (output : Option String) (languages : List String) :
    RunResult :=
  let url := resolveUrl urlArg promptedUrl
  match extract_youtube_metadata mapi capi url (some languages) with
  | .ok (some m) =>
    match output with
    | some path => ⟨0, some (path, m), false⟩
    | none => ⟨0, none, false⟩
  | .ok none => ⟨1, none, true⟩
  | .error _ => ⟨1, none, false⟩

/-- C7: when the metadata lookup fails (the assembler yields no record) the
program prints the failure message, exits with status 1 and writes no output
file even when `--output` was given; an assembler `ValueError` likewise exits
with status 1 and writes nothing; and a successful extraction exits with
status 0. -/
theorem claim_C7 :
    (∀ (mapi : MetadataAPI) (capi : CaptionAPI) (urlArg : Option String)
        (promptedUrl : String) (output : Option String) (languages : List String),
      extract_youtube_metadata mapi capi (resolveUrl urlArg promptedUrl)
          (some languages) = .ok none →
      main' mapi capi urlArg promptedUrl output languages = ⟨1, none, true⟩) ∧
    (∀ (mapi : MetadataAPI) (capi : CaptionAPI) (urlArg : Option String)
        (promptedUrl : String) (output : Option String) (languages : List String)
        (e : String),
      extract_youtube_metadata mapi capi (resolveUrl urlArg promptedUrl)
          (some languages) = .error e →
      main' mapi capi urlArg promptedUrl output languages = ⟨1, none, false⟩) ∧
    (∀ (mapi : MetadataAPI) (capi : CaptionAPI) (urlArg : Option String)
        (promptedUrl : String) (output : Option String) (languages : List String)
        (m : Metadata),
      extract_youtube_metadata mapi capi (resolveUrl urlArg promptedUrl)
          (some languages) = .ok (some m) →
      (main' mapi capi urlArg promptedUrl output languages).exitCode = 0) := by
  refine ⟨?_, ?_, ?_⟩
  · intro mapi capi urlArg promptedUrl output languages h
    simp only [main', h]
  · intro mapi capi urlArg promptedUrl output languages e h
    simp only [main', h]
  · intro mapi capi urlArg promptedUrl output languages m h
    simp only [main', h]
    cases output <;> rfl

/-- A metadata collaborator whose lookup always fails. -/
def mapiFails : MetadataAPI := ⟨fun _ => none⟩

/-- Witness for C7: a concrete run with a failing metadata lookup and
`--output` given still exits 1, writes nothing and prints the failure
message. -/
theorem claim_C7_witness :
    main' mapiFails apiEnAuto (some "https://youtu.be/dQw4w9WgXcQ") ""
      (some "out.json") ["en", "hi"] = ⟨1, none, true⟩ :=
  claim_C7.1 mapiFails apiEnAuto (some "https://youtu.be/dQw4w9WgXcQ") ""
    (some "out.json") ["en", "hi"] rfl

/-! ## File output (`save_to_json`)

`save_to_json` runs `json.dump(metadata, f, ensure_ascii=False, indent=2)`.
The serializer below reproduces that text for the assembler's dictionary:
keys in insertion order, `null` for `None`, two-space indentation, `", "`-free
separators (`",\n"` between items, `": "` after keys), and — because of
`ensure_ascii=False` — strings escaped only at `"`, `\` and control
characters, every other character written literally.  Round-trip fidelity is
stated against a character-level JSON parser for this schema. -/

def ind2 : List Char := [' ', ' ']

def ind4 : List Char := [' ', ' ', ' ', ' ']

def ind6 : List Char := [' ', ' ', ' ', ' ', ' ', ' ']

def isWsChar (c : Char) : Bool :=
  c = ' ' || c = '\n' || c = '\t' || c = '\r'

def skipWs : List Char → List Char
  | [] => []
  | c :: cs => if isWsChar c then skipWs cs else c :: cs

theorem skipWs_ind2 (cs : List Char) : skipWs (ind2 ++ cs) = skipWs cs := rfl

theorem skipWs_ind4 (cs : List Char) : skipWs (ind4 ++ cs) = skipWs cs := rfl

theorem skipWs_ind6 (cs : List Char) : skipWs (ind6 ++ cs) = skipWs cs := rfl

